import Mathlib

/-!
Verification of the sorting/searching module `src/algorithms.py` of the
CityBike repository.

The module exports six callables:
  * `merge_sort(data, key)`   — fully implemented (recursive merge sort);
  * `_merge(left, right, key)` — its merge step (implemented);
  * `insertion_sort(data, key)` — body is `raise NotImplementedError("insertion_sort")`;
  * `binary_search(sorted_data, target, key)` — the bisection loop is present
    (`while low <= high:` with `mid`/`mid_val` computed) but its body is the
    statement `pass`: `low` and `high` are never updated, and `return None`
    follows the loop;
  * `linear_search(data, target, key)` — body is `raise NotImplementedError("linear_search")`;
  * `benchmark_sort(data, key, repeats)` — implemented, returns a dict with keys
    `"merge_sort_ms"` and `"builtin_sorted_ms"`;
  * `benchmark_search(data, target, key, repeats)` — body is
    `raise NotImplementedError("benchmark_search")`.

Embedding conventions:
  * Python lists are Lean `List α`; the key function is `k : α → β` with
    `[LinearOrder β]` (the spec demands a totally ordered key codomain).
  * A Python function that can raise is embedded in `Except String`, the
    error string being the `NotImplementedError` message.
  * `binary_search`'s `while` loop is embedded as a fuel-indexed evaluator:
    `none` means the fuel ran out (the loop is still running), `some none`
    means the function returned Python's `None`, `some (some i)` means it
    returned index `i`.  `low`/`high` are `Int` because Python's `high = len-1`
    is `-1` on the empty list.
-/

namespace CityBike

variable {α : Type} {β : Type} [LinearOrder β]

/-- Embedding of `_merge(left, right, key)` (src/algorithms.py lines 51-68):
the `while i < len(left) and j < len(right)` loop emits `left[i]` when
`key(left[i]) <= key(right[j])` and `right[j]` otherwise; the two trailing
`result.extend` calls append whatever remains of the unexhausted side. -/
def _merge (k : α → β) : List α → List α → List α
  | [], right => right
  | left, [] => left
  | a :: l, b :: r =>
    if k a ≤ k b then a :: _merge k l (b :: r)
    else b :: _merge k (a :: l) r
termination_by l r => l.length + r.length

/-- Embedding of `merge_sort(data, key)` (src/algorithms.py lines 27-48):
length ≤ 1 returns `list(data)` (a copy, the same value); otherwise split at
`mid = len(data)//2` into `data[:mid]` / `data[mid:]`, sort both halves
recursively and `_merge` them. -/
def merge_sort (data : List α) (k : α → β) : List α :=
  if data.length ≤ 1 then data
  else
    _merge k (merge_sort (data.take (data.length / 2)) k)
             (merge_sort (data.drop (data.length / 2)) k)
termination_by data.length
decreasing_by
  · simp only [List.length_take]; omega
  · simp only [List.length_drop]; omega

/-- Embedding of `insertion_sort(data, key)` (src/algorithms.py lines 75-95):
the body is exactly `raise NotImplementedError("insertion_sort")`. -/
def insertion_sort (data : List α) (k : α → β) : Except String (List α) :=
  Except.error "insertion_sort"

/-- Embedding of `linear_search(data, target, key)` (src/algorithms.py lines
140-161): the body is exactly `raise NotImplementedError("linear_search")`. -/
def linear_search (data : List α) (target : β) (k : α → β) :
    Except String (Option Nat) :=
  Except.error "linear_search"

/-- Embedding of `benchmark_search(data, target, key, repeats)`
(src/algorithms.py lines 187-203): the body is exactly
`raise NotImplementedError("benchmark_search")`. -/
def benchmark_search (data : List α) (target : β) (k : α → β) (repeats : Nat) :
    Except String (List (String × ℚ)) :=
  Except.error "benchmark_search"

/-- One fuel-indexed run of the `while low <= high:` loop of
`binary_search` (src/algorithms.py lines 125-133).  The loop body as written
computes `mid = (low + high) // 2` (Python floor division) and
`mid_val = key(sorted_data[mid])`, then executes `pass`: `low` and `high`
are left unchanged.  After the loop, `return None`. -/
def binary_search_loop (data : List α) (target : β) (k : α → β) :
    Nat → Int → Int → Option (Option Nat)
  | 0, _, _ => none
  | fuel + 1, low, high =>
    if low ≤ high then
      let mid : Int := (low + high).fdiv 2
      let _mid_val : Option β := (data.get? mid.toNat).map k
      binary_search_loop data target k fuel low high
    else
      some none

/-- Embedding of `binary_search(sorted_data, target, key)` (src/algorithms.py
lines 102-133): `low, high = 0, len(sorted_data) - 1`, then the loop. -/
def binary_search (data : List α) (target : β) (k : α → β) (fuel : Nat) :
    Option (Option Nat) :=
  binary_search_loop data target k fuel 0 ((data.length : Int) - 1)

/-- Python `round(x, 2)` on the millisecond values, modelled on rationals. -/
def round2 (q : ℚ) : ℚ := (round (q * 100) : ℤ) / 100

/-- Embedding of `benchmark_sort(data, key, repeats)` (src/algorithms.py lines
168-184).  The two `timeit.timeit` wall-clock measurements are inputs of the
embedding (`custom_time`, `builtin_time`, in seconds); the function returns a
dict with exactly the keys `"merge_sort_ms"` and `"builtin_sorted_ms"`, each
value being `round(time / repeats * 1000, 2)`. -/
def benchmark_sort (custom_time builtin_time : ℚ) (repeats : Nat) :
    List (String × ℚ) :=
  [("merge_sort_ms", round2 (custom_time / repeats * 1000)),
   ("builtin_sorted_ms", round2 (builtin_time / repeats * 1000))]

/-! ### Lemmas about `_merge` -/

theorem _merge_perm (k : α → β) : ∀ l r : List α, (_merge k l r).Perm (l ++ r) := by
  intro l
  induction l with
  | nil => intro r; simp [_merge]
  | cons a l ih =>
    intro r
    induction r with
    | nil => simp [_merge]
    | cons b r ihr =>
      rw [_merge]
      split
      · exact (ih (b :: r)).cons a
      · exact (ihr.cons b).trans List.perm_middle.symm

theorem _merge_pairwise (k : α → β) : ∀ l r : List α,
    l.Pairwise (fun a b => k a ≤ k b) → r.Pairwise (fun a b => k a ≤ k b) →
    (_merge k l r).Pairwise (fun a b => k a ≤ k b) := by
  intro l
  induction l with
  | nil => intro r _ hr; simpa [_merge] using hr
  | cons a l ih =>
    intro r
    induction r with
    | nil => intro hl _; simpa [_merge] using hl
    | cons b r ihr =>
      intro hl hr
      rw [_merge]
      split
      · next hab =>
        rw [List.pairwise_cons]
        refine ⟨?_, ih (b :: r) (List.pairwise_cons.mp hl).2 hr⟩
        intro x hx
        have hx' : x ∈ l ++ (b :: r) := (_merge_perm k l (b :: r)).mem_iff.mp hx
        rcases List.mem_append.mp hx' with hxl | hxbr
        · exact (List.pairwise_cons.mp hl).1 x hxl
        · rcases List.mem_cons.mp hxbr with rfl | hxr
          · exact hab
          · exact le_trans hab ((List.pairwise_cons.mp hr).1 x hxr)
      · next hab =>
        have hba : k b ≤ k a := le_of_not_le hab
        rw [List.pairwise_cons]
        refine ⟨?_, ihr hl (List.pairwise_cons.mp hr).2⟩
        intro x hx
        have hx' : x ∈ (a :: l) ++ r := (_merge_perm k (a :: l) r).mem_iff.mp hx
        rcases List.mem_append.mp hx' with hxal | hxr
        · rcases List.mem_cons.mp hxal with rfl | hxl
          · exact hba
          · exact le_trans hba ((List.pairwise_cons.mp hl).1 x hxl)
        · exact (List.pairwise_cons.mp hr).1 x hxr

/-- `List.filter_cons` with all arguments explicit, for targeted rewriting. -/
theorem filter_cons_eq (p : α → Bool) (a : α) (l : List α) :
    (a :: l).filter p = if p a then a :: l.filter p else l.filter p :=
  List.filter_cons

/-- Stability of the merge step: when the left input is sorted, filtering the
merged output to any single key value `c` yields the left occurrences of `c`
followed by the right occurrences, in their original orders.  (Sortedness of
the left list is what guarantees that when a right element wins the strict
comparison, no equal-keyed left element has yet to be emitted.) -/
theorem _merge_filter (k : α → β) (c : β) : ∀ l r : List α,
    l.Pairwise (fun a b => k a ≤ k b) →
    (_merge k l r).filter (fun x => decide (k x = c)) =
      l.filter (fun x => decide (k x = c)) ++
        r.filter (fun x => decide (k x = c)) := by
  intro l
  induction l with
  | nil => intro r _; simp [_merge]
  | cons a l ih =>
    intro r
    induction r with
    | nil => intro _; simp [_merge]
    | cons b r ihr =>
      intro hl
      rw [_merge]
      split
      · next hab =>
        rw [filter_cons_eq (fun x => decide (k x = c)) a (_merge k l (b :: r)),
            ih (b :: r) (List.pairwise_cons.mp hl).2,
            filter_cons_eq (fun x => decide (k x = c)) a l]
        by_cases hac : k a = c <;> simp [hac]
      · next hab =>
        have hba : k b < k a := lt_of_not_le hab
        rw [filter_cons_eq (fun x => decide (k x = c)) b (_merge k (a :: l) r),
            ihr hl,
            filter_cons_eq (fun x => decide (k x = c)) b r]
        by_cases hbc : k b = c
        · have hnil : (a :: l).filter (fun x => decide (k x = c)) = [] := by
            rw [List.filter_eq_nil_iff]
            intro x hx hpc
            have hc : k x = c := of_decide_eq_true hpc
            have hax : k a ≤ k x := by
              rcases List.mem_cons.mp hx with rfl | hxl
              · exact le_refl _
              · exact (List.pairwise_cons.mp hl).1 x hxl
            exact absurd (hc ▸ hax) (not_le_of_lt (hbc ▸ hba))
          simp [hbc, hnil]
        · simp [hbc]

/-! ### Theorems about `merge_sort` -/

theorem merge_sort_perm (data : List α) (k : α → β) :
    (merge_sort data k).Perm data := by
  rw [merge_sort]
  split
  · exact List.Perm.refl data
  · next h =>
    have h1 := merge_sort_perm (data.take (data.length / 2)) k
    have h2 := merge_sort_perm (data.drop (data.length / 2)) k
    have h3 := (_merge_perm k (merge_sort (data.take (data.length / 2)) k)
      (merge_sort (data.drop (data.length / 2)) k)).trans (h1.append h2)
    simpa [List.take_append_drop] using h3
termination_by data.length
decreasing_by
  · simp only [List.length_take]; omega
  · simp only [List.length_drop]; omega

theorem merge_sort_pairwise (data : List α) (k : α → β) :
    (merge_sort data k).Pairwise (fun a b => k a ≤ k b) := by
  rw [merge_sort]
  split
  · next h =>
    rcases data with _ | ⟨a, _ | ⟨b, t⟩⟩
    · exact List.Pairwise.nil
    · simp
    · simp at h
  · next h =>
    exact _merge_pairwise k _ _
      (merge_sort_pairwise (data.take (data.length / 2)) k)
      (merge_sort_pairwise (data.drop (data.length / 2)) k)
termination_by data.length
decreasing_by
  · simp only [List.length_take]; omega
  · simp only [List.length_drop]; omega

theorem merge_sort_filter (data : List α) (k : α → β) (c : β) :
    (merge_sort data k).filter (fun x => decide (k x = c)) =
      data.filter (fun x => decide (k x = c)) := by
  rw [merge_sort]
  split
  · rfl
  · next h =>
    rw [_merge_filter k c _ _ (merge_sort_pairwise (data.take (data.length / 2)) k),
        merge_sort_filter (data.take (data.length / 2)) k c,
        merge_sort_filter (data.drop (data.length / 2)) k c,
        ← List.filter_append, List.take_append_drop]
termination_by data.length
decreasing_by
  · simp only [List.length_take]; omega
  · simp only [List.length_drop]; omega

/-! ### Lemmas about `binary_search` as written -/

/-- Once the loop of `binary_search` is entered (`low ≤ high`), no amount of
fuel makes it produce a result: the body never modifies `low` or `high`. -/
theorem binary_search_loop_stuck (data : List α) (target : β) (k : α → β)
    (low high : Int) (h : low ≤ high) :
    ∀ fuel : Nat, binary_search_loop data target k fuel low high = none := by
  intro fuel
  induction fuel with
  | zero => rfl
  | succ n ih => rw [binary_search_loop, if_pos h]; exact ih

/-! ### Claim theorems -/

/-- C1: for every finite list `S` and pure key function `k` into a totally
ordered type, `merge_sort(S, k)` returns a permutation of `S` whose elements
are in non-decreasing order of `k`: `k` applied to consecutive output
elements never decreases. -/
theorem C1_merge_sort_correct (S : List α) (k : α → β) :
    (merge_sort S k).Perm S ∧
      (merge_sort S k).Chain' (fun a b => k a ≤ k b) :=
  ⟨merge_sort_perm S k, (merge_sort_pairwise S k).chain'⟩

/-- C2 (failing input): on the sorted list `[1, 2, 3]` with target `2`
(present at index 1), `binary_search` as written never returns anything:
for every fuel bound the `while low <= high` loop is still running, because
its body is `pass` and never updates `low` or `high`.  So it neither returns
an index for a present target nor `None` for an absent one. -/
theorem C2_binary_search_never_returns :
    ∀ fuel : Nat, binary_search [1, 2, 3] (2 : ℕ) id fuel = none := by
  intro fuel
  unfold binary_search
  exact binary_search_loop_stuck _ _ _ _ _ (by norm_num) fuel

/-- C3 (failing input): with absent target `5` on `[1, 2, 3]`, the bisection
loop of `binary_search` never exits — the interval never shrinks (no
`low = mid+1` / `high = mid-1` is executed; the body is `pass`), so the
not-found sentinel is never reached for any fuel bound. -/
theorem C3_binary_search_loop_never_exits :
    ∀ fuel : Nat, binary_search [1, 2, 3] (5 : ℕ) id fuel = none := by
  intro fuel
  unfold binary_search
  exact binary_search_loop_stuck _ _ _ _ _ (by norm_num) fuel

/-- C4 (failing input): `insertion_sort([2, 1], id)` raises
`NotImplementedError("insertion_sort")`, whereas the claim says it returns
the same list as `merge_sort([2, 1], id)`, namely `[1, 2]`. -/
theorem C4_insertion_sort_raises_not_sorts :
    insertion_sort [2, 1] (id : ℕ → ℕ) = Except.error "insertion_sort" ∧
      merge_sort [2, 1] (id : ℕ → ℕ) = [1, 2] := by
  refine ⟨rfl, ?_⟩
  simp [merge_sort, _merge]

/-- C5 (failing input): `linear_search([5], 5, id)` raises
`NotImplementedError("linear_search")`, whereas the claim says it returns
the smallest matching index, namely `0`. -/
theorem C5_linear_search_raises :
    linear_search [5] (5 : ℕ) id = Except.error "linear_search" := rfl

/-- C6 counterexample: on the input `[(1, 10), (2, 10)]` keyed by the second
component — two equal-keyed elements with `(1, 10)` preceding `(2, 10)` —
`insertion_sort` produces no output list at all (it raises
`NotImplementedError`), so the claim that the earlier element precedes the
later one in the output of `insertion_sort` is false. -/
theorem C6_insertion_sort_has_no_output :
    ¬ ∃ out : List (ℕ × ℕ),
        insertion_sort [(1, 10), (2, 10)] (Prod.snd : ℕ × ℕ → ℕ) =
          Except.ok out := by
  rintro ⟨out, h⟩
  simp [insertion_sort] at h

/-- C6 (amended): `merge_sort` is stable — for every key value `c`, the
key-`c` elements of the output are exactly the key-`c` elements of the input
in their original relative order (a consequence of the merge step choosing
left when `key(left_head) <= key(right_head)`) — while `insertion_sort`
raises `NotImplementedError` and produces no output at all. -/
theorem C6_merge_sort_stable (S : List α) (k : α → β) (c : β) :
    (merge_sort S k).filter (fun x => decide (k x = c)) =
        S.filter (fun x => decide (k x = c)) ∧
      insertion_sort S k = Except.error "insertion_sort" :=
  ⟨merge_sort_filter S k c, rfl⟩

/-- C7 counterexample: even on the empty list, `insertion_sort` does not
return the empty list — it raises `NotImplementedError` (its body raises
unconditionally, before ever inspecting the input). -/
theorem C7_insertion_sort_empty_raises :
    ¬ ∃ out : List ℕ, insertion_sort ([] : List ℕ) (id : ℕ → ℕ) =
        Except.ok out := by
  rintro ⟨out, h⟩
  simp [insertion_sort] at h

/-- C7 (amended): on the empty list, `merge_sort` returns the empty list and
`binary_search` returns the not-found sentinel `None` (`low = 0 > high = -1`,
so the loop is never entered — any positive fuel suffices), while
`insertion_sort` and `linear_search` raise `NotImplementedError` on the empty
list just as on every other input. -/
theorem C7_empty_input (k : α → β) (t : β) (fuel : Nat) :
    merge_sort ([] : List α) k = [] ∧
      binary_search ([] : List α) t k (fuel + 1) = some none ∧
      insertion_sort ([] : List α) k = Except.error "insertion_sort" ∧
      linear_search ([] : List α) t k = Except.error "linear_search" := by
  refine ⟨?_, ?_, rfl, rfl⟩
  · rw [merge_sort]
    simp
  · rw [binary_search, binary_search_loop]
    norm_num

/-- C9 (failing input): `benchmark_sort` does return a mapping with exactly
the stable keys `"merge_sort_ms"` and `"builtin_sorted_ms"` (each value
`round(total / repeats * 1000, 2)` of the measured time), but
`benchmark_search([1, 2, 3], 2, id, 5)` raises
`NotImplementedError("benchmark_search")` instead of returning any mapping
at all. -/
theorem C9_benchmark_search_raises (t1 t2 : ℚ) (repeats : Nat) :
    (benchmark_sort t1 t2 repeats).map Prod.fst =
        ["merge_sort_ms", "builtin_sorted_ms"] ∧
      benchmark_search [1, 2, 3] (2 : ℕ) id 5 =
        Except.error "benchmark_search" :=
  ⟨rfl, rfl⟩

/-- C10: `insertion_sort`, `linear_search` and `benchmark_search` raise
`NotImplementedError` for every input — their bodies consist solely of the
`raise` statement — so no call to any of them ever returns a value. -/
theorem C10_stubs_always_raise (data : List α) (k : α → β) (target : β)
    (repeats : Nat) :
    insertion_sort data k = Except.error "insertion_sort" ∧
      linear_search data target k = Except.error "linear_search" ∧
      benchmark_search data target k repeats =
        Except.error "benchmark_search" :=
  ⟨rfl, rfl, rfl⟩

end CityBike
